import Mathlib

/-!
Shallow embedding of `race_economy.py` (MM-Backend): trophy engine,
quit-guard pre-deduction, coin engine, experience engine, rank table and
the finish-time orchestrator.  Python floats are modelled as real numbers,
Python `round` (banker's rounding, half to even) as `pyRound`, and Python
exceptions (`ValueError`, `KeyError`, `IndexError`) as an `Except` result.
-/

namespace RaceEconomy

/-- Python exceptions raised by the engine. -/
inductive PyErr where
  | valueError (msg : String)
  | keyError (msg : String)
  | indexError
  deriving DecidableEq, Repr

/-- Python 3 `round` on a float, returning an int: round half to even. -/
noncomputable def pyRound (x : ℝ) : ℤ :=
  if Int.fract x < 1/2 then ⌊x⌋
  else if 1/2 < Int.fract x then ⌊x⌋ + 1
  else if Even ⌊x⌋ then ⌊x⌋ else ⌊x⌋ + 1

/-- `RANK_THRESHOLDS`: inclusive rating thresholds to rank labels. -/
def RANK_THRESHOLDS : List (ℤ × String) := [
  (0,    "Unranked"),
  (250,  "Bronze I"),
  (500,  "Bronze II"),
  (750,  "Bronze III"),
  (1000, "Silver I"),
  (1250, "Silver II"),
  (1500, "Silver III"),
  (1750, "Gold I"),
  (2000, "Gold II"),
  (2250, "Gold III"),
  (2500, "Platinum I"),
  (2750, "Platinum II"),
  (3000, "Platinum III"),
  (3250, "Diamond I"),
  (3500, "Diamond II"),
  (3750, "Diamond III"),
  (4000, "Master I"),
  (4250, "Master II"),
  (4500, "Master III"),
  (4750, "Champion I"),
  (5000, "Champion II"),
  (5250, "Champion III"),
  (5500, "Ascendant I"),
  (5750, "Ascendant II"),
  (6000, "Ascendant III"),
  (6250, "Hypersonic I"),
  (6500, "Hypersonic II"),
  (7000, "Hypersonic III")]

/-- `RANK_LABELS`: ordered list of rank labels. -/
def RANK_LABELS : List String := RANK_THRESHOLDS.map (fun p => p.2)

/-- `get_rank_for_trophies`: scan thresholds from the top; first inclusive hit wins. -/
def get_rank_for_trophies (trophies : ℤ) : String :=
  match RANK_THRESHOLDS.reverse.find? (fun p => decide (p.1 ≤ trophies)) with
  | some p => p.2
  | none => "Unranked"

/-- `TrophyConfig` dataclass (`float("inf")` breakpoint bound modelled as `none`). -/
structure TrophyConfig where
  D : ℝ := 700
  TAU : ℝ := 600
  W_MIN : ℝ := 0.20
  PER_PAIR_CLIP : ℝ := 8
  CLAMP_MIN : ℤ := -40
  CLAMP_MAX : ℤ := 40
  base_k_breakpoints : List (Option ℝ × ℝ) := [
    (some 2000, 48), (some 4000, 40), (some 6000, 32), (some 7000, 24),
    (some 8000, 12), (some 9000, 10), (some 10000, 8), (none, 6)]
  soft_ceiling_start : ℝ := 7000
  soft_ceiling_lambda : ℝ := 1 / 2000

/-- `CoinConfig` dataclass. -/
structure CoinConfig where
  rank_max_by_place : Option (List (String × List ℤ)) := none
  difficulty_floor : ℝ := 0.85
  difficulty_ceiling : ℝ := 1.15
  round_to : ℤ := 100
  booster_multiplier : ℝ := 1.0

/-- `ExpConfig` dataclass. -/
structure ExpConfig where
  base_min : ℤ := 100
  base_max : ℤ := 208
  pos_min_mult : ℝ := 0.80
  pos_max_mult : ℝ := 1.20
  booster_multiplier : ℝ := 1.0
  rank_place_caps : Option (List (String × List ℤ)) := none

/-- Helper for `_base_k`: first breakpoint whose bound exceeds `r` (`none` = infinity). -/
noncomputable def findK : List (Option ℝ × ℝ) → ℝ → Option ℝ
  | [], _ => none
  | (bound, k) :: rest, r =>
    match bound with
    | none => some k
    | some b => if r < b then some k else findK rest r

/-- `_base_k`: pick K from the piecewise schedule based on `r` trophies. -/
noncomputable def base_k (r : ℝ) (cfg : TrophyConfig) : ℝ :=
  match findK cfg.base_k_breakpoints r with
  | some k => k
  | none => ((cfg.base_k_breakpoints.getLast?.map (fun p => p.2)).getD 0)

/-- `_high_rank_damping`: soft ceiling damping multiplier. -/
noncomputable def high_rank_damping (r : ℝ) (cfg : TrophyConfig) : ℝ :=
  Real.exp (-cfg.soft_ceiling_lambda * max 0 (r - cfg.soft_ceiling_start))

/-- `_expected`: standard Elo expected score of A vs B. -/
noncomputable def expected (ra rb : ℝ) (cfg : TrophyConfig) : ℝ :=
  1 / (1 + (10 : ℝ) ^ ((rb - ra) / cfg.D))

/-- The dict returned by `_precompute_for_player`. -/
structure Precomp where
  K : ℝ
  H : ℝ
  w : List ℝ
  E : List ℝ

/-- Raw distance weight of opponent `j` for player rating `ri` (exp decay, floored at `W_MIN`). -/
noncomputable def rawWeight (ri : ℝ) (ratings : List ℤ) (cfg : TrophyConfig) (j : ℕ) : ℝ :=
  let dist := |((ratings.getD j 0 : ℤ) : ℝ) - ri|
  let w := Real.exp (-dist / cfg.TAU)
  if w < cfg.W_MIN then cfg.W_MIN else w

/-- `_precompute_for_player` (`ratings[i]` out of range raises `IndexError`). -/
noncomputable def precompute_for_player (i : ℕ) (ratings : List ℤ) (cfg : TrophyConfig) :
    Except PyErr Precomp :=
  match ratings.get? i with
  | none => .error .indexError
  | some riz =>
    let n := ratings.length
    let ri : ℝ := (riz : ℝ)
    let raw : List ℝ := (List.range n).map (fun j => if j = i then 0 else rawWeight ri ratings cfg j)
    let total : ℝ := raw.sum
    let w_norm : List ℝ :=
      if 0 < total then
        (List.range n).map (fun j => if j = i then 0 else rawWeight ri ratings cfg j / total)
      else
        (List.range n).map (fun j => if j = i then 0 else 1 / ((n - 1 : ℕ) : ℝ))
    let E : List ℝ :=
      (List.range n).map (fun j =>
        if j = i then 0 else expected ri (((ratings.getD j 0 : ℤ) : ℝ)) cfg)
    .ok ⟨base_k ri cfg, high_rank_damping ri cfg, w_norm, E⟩

/-- Per-pair clipped contribution used inside `_delta_at_finish_using_i`. -/
noncomputable def pairContribution (pre : Precomp) (cfg : TrophyConfig)
    (finished_before : List ℕ) (j : ℕ) : ℝ :=
  let Sij : ℝ := if j ∈ finished_before then 0 else 1
  let d := pre.K * pre.H * pre.w.getD j 0 * (Sij - pre.E.getD j 0)
  let d1 := if cfg.PER_PAIR_CLIP < d then cfg.PER_PAIR_CLIP else d
  if d1 < -cfg.PER_PAIR_CLIP then -cfg.PER_PAIR_CLIP else d1

/-- `_delta_at_finish_using_i`: sum clipped per-opponent contributions, round, clamp. -/
noncomputable def delta_at_finish_using_i (i : ℕ) (finish_order : List ℕ) (pre : Precomp)
    (ratings_count : ℕ) (cfg : TrophyConfig) (place_index_for_i : Option ℕ) :
    Except PyErr ℤ :=
  match
    if i ∈ finish_order then
      (Except.ok (finish_order.take (finish_order.indexOf i)) : Except PyErr (List ℕ))
    else
      match place_index_for_i with
      | none => .error (.valueError "i not in finish_order; provide place_index_for_i.")
      | some p => .ok (finish_order.take p)
  with
  | .error e => .error e
  | .ok finished_before =>
    let total : ℝ :=
      ((List.range ratings_count).map (fun j =>
        if j = i then 0 else pairContribution pre cfg finished_before j)).sum
    let delta0 := pyRound total
    let delta1 := if delta0 < cfg.CLAMP_MIN then cfg.CLAMP_MIN else delta0
    let delta2 := if cfg.CLAMP_MAX < delta1 then cfg.CLAMP_MAX else delta1
    .ok delta2

/-- `calculate_trophies`: public entry for the trophy delta. -/
noncomputable def calculate_trophies (player_index : ℕ) (finish_order : List ℕ)
    (ratings : List ℤ) (cfg : TrophyConfig) (place_index_for_i : Option ℕ) :
    Except PyErr ℤ :=
  match precompute_for_player player_index ratings cfg with
  | .error e => .error e
  | .ok pre =>
    delta_at_finish_using_i player_index finish_order pre ratings.length cfg place_index_for_i

/-- `COIN_CAPS_BY_RANK`: hardcoded per-rank, per-place coin caps. -/
def COIN_CAPS_BY_RANK : List (String × List ℤ) := [
  ("Unranked",       [2000, 1500, 1200, 900, 900, 900, 900, 900]),
  ("Bronze I",       [2200, 1650, 1300, 1000, 1000, 1000, 1000, 1000]),
  ("Bronze II",      [2500, 1900, 1500, 1100, 1100, 1100, 1100, 1100]),
  ("Bronze III",     [2800, 2100, 1700, 1300, 1300, 1300, 1300, 1300]),
  ("Silver I",       [3100, 2300, 1900, 1400, 1400, 1400, 1400, 1400]),
  ("Silver II",      [3500, 2600, 2100, 1600, 1600, 1600, 1600, 1600]),
  ("Silver III",     [3900, 2900, 2300, 1800, 1800, 1800, 1800, 1800]),
  ("Gold I",         [4300, 3200, 2600, 1900, 1900, 1900, 1900, 1900]),
  ("Gold II",        [4800, 3600, 2900, 2200, 2200, 2200, 2200, 2200]),
  ("Gold III",       [5400, 4100, 3200, 2400, 2400, 2400, 2400, 2400]),
  ("Platinum I",     [6000, 4500, 3600, 2700, 2700, 2700, 2700, 2700]),
  ("Platinum II",    [6700, 5000, 4000, 3000, 3000, 3000, 3000, 3000]),
  ("Platinum III",   [7500, 5600, 4500, 3400, 3400, 3400, 3400, 3400]),
  ("Diamond I",      [8400, 6300, 5000, 3800, 3800, 3800, 3800, 3800]),
  ("Diamond II",     [9400, 7100, 5600, 4200, 4200, 4200, 4200, 4200]),
  ("Diamond III",    [10500, 7900, 6300, 4700, 4700, 4700, 4700, 4700]),
  ("Master I",       [11800, 8900, 7100, 5300, 5300, 5300, 5300, 5300]),
  ("Master II",      [13200, 9900, 7900, 5900, 5900, 5900, 5900, 5900]),
  ("Master III",     [14800, 11100, 8900, 6600, 6600, 6600, 6600, 6600]),
  ("Champion I",     [16600, 12400, 10000, 7500, 7500, 7500, 7500, 7500]),
  ("Champion II",    [18600, 14000, 11200, 8400, 8400, 8400, 8400, 8400]),
  ("Champion III",   [20900, 15700, 12500, 9400, 9400, 9400, 9400, 9400]),
  ("Ascendant I",    [23400, 17600, 14000, 10500, 10500, 10500, 10500, 10500]),
  ("Ascendant II",   [26200, 19700, 15700, 11800, 11800, 11800, 11800, 11800]),
  ("Ascendant III",  [29400, 22100, 17600, 13200, 13200, 13200, 13200, 13200]),
  ("Hypersonic I",   [32900, 24700, 19700, 14800, 14800, 14800, 14800, 14800]),
  ("Hypersonic II",  [36900, 27700, 22100, 16600, 16600, 16600, 16600, 16600]),
  ("Hypersonic III", [41300, 31000, 24800, 18600, 18600, 18600, 18600, 18600])]

/-- `_avg_expected_vs_lobby`: weighted average expected win probability vs the lobby. -/
noncomputable def avg_expected_vs_lobby (i : ℕ) (ratings : List ℤ) (cfg : TrophyConfig) :
    Except PyErr ℝ :=
  match precompute_for_player i ratings cfg with
  | .error e => .error e
  | .ok pre =>
    .ok (((List.range pre.E.length).map (fun j =>
      if j = i then 0 else pre.w.getD j 0 * pre.E.getD j 0)).sum)

/-- `_difficulty_multiplier`: map avg expected win probability to `[floor..ceiling]`. -/
noncomputable def difficulty_multiplier (avg_E floor ceiling : ℝ) : ℝ :=
  let x := max (-0.5) (min 0.5 (0.5 - avg_E)) / 0.5
  if 0 ≤ x then 1.0 + x * (ceiling - 1.0) else 1.0 + x * (1.0 - floor)

/-- `calculate_coins`: cap × difficulty multiplier × booster, rounded to `round_to`. -/
noncomputable def calculate_coins (rank_label : String) (place : ℤ)
    (lobby_ratings : List ℤ) (player_index : ℕ) (coin_cfg : CoinConfig)
    (trophy_cfg : TrophyConfig) : Except PyErr ℤ :=
  match coin_cfg.rank_max_by_place with
  | none => .error (.valueError "CoinConfig.rank_max_by_place must be provided.")
  | some table =>
    match table.lookup rank_label with
    | none => .error (.keyError "Missing caps for rank or invalid place")
    | some caps =>
      if caps = [] ∨ ¬(1 ≤ place ∧ place ≤ (caps.length : ℤ)) then
        .error (.keyError "Missing caps for rank or invalid place")
      else
        let max_for_place : ℝ := ((caps.getD (place - 1).toNat 0 : ℤ) : ℝ)
        match avg_expected_vs_lobby player_index lobby_ratings trophy_cfg with
        | .error e => .error e
        | .ok avgE =>
          let mult := difficulty_multiplier avgE coin_cfg.difficulty_floor
            coin_cfg.difficulty_ceiling
          let raw := max_for_place * mult * coin_cfg.booster_multiplier
          let rounded : ℤ := pyRound (raw / (coin_cfg.round_to : ℝ)) * coin_cfg.round_to
          .ok (max 0 rounded)

/-- `_exp_place_mults`: per-place EXP multipliers, linear 1.20 → 0.80. -/
def exp_place_mults : List ℝ :=
  [1.20, 1.142857, 1.085714, 1.028571, 0.971429, 0.914286, 0.857143, 0.80]

/-- `_exp_base_for_rank`: base EXP linear in the rank ordinal. -/
noncomputable def exp_base_for_rank (rank_label : String) (base_min base_max : ℤ) : ℝ :=
  let idx : ℕ := if rank_label ∈ RANK_LABELS then RANK_LABELS.indexOf rank_label else 0
  let steps : ℕ := max 1 (RANK_LABELS.length - 1)
  (base_min : ℝ) + ((base_max : ℝ) - (base_min : ℝ)) * ((idx : ℝ) / (steps : ℝ))

/-- `EXP_CAPS_BY_RANK`: generated per-rank, per-place EXP caps. -/
noncomputable def EXP_CAPS_BY_RANK : List (String × List ℤ) :=
  RANK_LABELS.map (fun r =>
    (r, exp_place_mults.map (fun m => pyRound (exp_base_for_rank r 100 208 * m))))

/-- `calculate_exp`: table mode when both a caps table and a rank label are given,
otherwise the flat formula fallback. -/
noncomputable def calculate_exp (trophies : ℤ) (place : ℤ) (total_positions : ℤ)
    (cfg : ExpConfig) (rank_label : Option String) : Except PyErr ℤ :=
  match cfg.rank_place_caps, rank_label with
  | some table, some rl =>
    match table.lookup rl with
    | none => .error (.keyError "Missing EXP caps for rank or invalid place")
    | some caps =>
      if caps = [] ∨ ¬(1 ≤ place ∧ place ≤ (caps.length : ℤ)) then
        .error (.keyError "Missing EXP caps for rank or invalid place")
      else
        .ok (max 0 (pyRound (((caps.getD (place - 1).toNat 0 : ℤ) : ℝ) *
          cfg.booster_multiplier)))
  | _, _ =>
    let t : ℝ := max 0 (min 1 ((trophies : ℝ) / 7000))
    let base : ℝ := (cfg.base_min : ℝ) + ((cfg.base_max : ℝ) - (cfg.base_min : ℝ)) * t
    let pos_mult : ℝ :=
      if 1 < total_positions then
        cfg.pos_max_mult + (cfg.pos_min_mult - cfg.pos_max_mult) *
          (((place : ℝ) - 1) / ((total_positions : ℝ) - 1))
      else 1.0
    .ok (max 0 (pyRound (base * pos_mult * cfg.booster_multiplier)))

/-- `_synthetic_last_place_finish_order`: all other indices, then the player last. -/
def synthetic_last_place_finish_order (n : ℕ) (player_index : ℕ) : List ℕ :=
  ((List.range n).filter (fun j => decide (j ≠ player_index))) ++ [player_index]

/-- `calculate_last_place_delta`: trophy delta if the player finished last. -/
noncomputable def calculate_last_place_delta (player_index : ℕ) (ratings : List ℤ)
    (trophy_cfg : TrophyConfig) : Except PyErr ℤ :=
  calculate_trophies player_index
    (synthetic_last_place_finish_order ratings.length player_index) ratings trophy_cfg none

/-- `RaceSettlement` dataclass. -/
structure RaceSettlement where
  actual_trophies_delta : ℤ
  settlement_delta : ℤ
  deriving DecidableEq, Repr

/-- `settle_trophies_after_finish`: actual delta and settlement vs pre-deduction. -/
noncomputable def settle_trophies_after_finish (player_index : ℕ) (finish_order : List ℕ)
    (ratings : List ℤ) (trophy_cfg : TrophyConfig) (last_place_delta_applied : ℤ)
    (place_index_for_i : Option ℕ) : Except PyErr RaceSettlement :=
  match calculate_trophies player_index finish_order ratings trophy_cfg place_index_for_i with
  | .error e => .error e
  | .ok actual => .ok ⟨actual, actual - last_place_delta_applied⟩

/-- `RaceInputsWithPrededuction` dataclass. -/
structure RaceInputsWithPrededuction where
  player_index : ℕ
  finish_order : List ℕ
  ratings : List ℤ
  place : ℤ
  total_positions : ℤ
  has_coin_booster : Bool
  has_exp_booster : Bool
  last_place_delta_applied : ℤ
  place_index_for_i : Option ℕ

/-- `RaceRewardsWithSettlement` dataclass. -/
structure RaceRewardsWithSettlement where
  trophies_actual : ℤ
  trophies_settlement : ℤ
  coins : ℤ
  exp : ℤ
  old_rank : String
  new_rank : String
  promoted : Bool
  demoted : Bool
  pre_deducted_last : ℤ

/-- `_rank_index` (local helper in the orchestrator): ordinal of a rank label, 0 if unknown. -/
def rank_index (name : String) : ℕ :=
  match RANK_THRESHOLDS.findIdx? (fun p => p.2 == name) with
  | some idx => idx
  | none => 0

/-- The Python expression `exp_cfg.rank_place_caps or EXP_CAPS_BY_RANK` used by the
orchestrator (`None` and the empty dict are both falsy). -/
noncomputable def expTableOf (exp_cfg : ExpConfig) : List (String × List ℤ) :=
  match exp_cfg.rank_place_caps with
  | none => EXP_CAPS_BY_RANK
  | some l => if l = [] then EXP_CAPS_BY_RANK else l

/-- `compute_race_rewards_with_prededuction`: the finish-time orchestrator. -/
noncomputable def compute_race_rewards_with_prededuction
    (inp : RaceInputsWithPrededuction) (trophy_cfg : TrophyConfig)
    (coin_cfg : CoinConfig) (exp_cfg : ExpConfig) :
    Except PyErr RaceRewardsWithSettlement :=
  match inp.ratings.get? inp.player_index with
  | none => .error .indexError
  | some old_trophies =>
    let old_rank := get_rank_for_trophies old_trophies
    let rank_label_for_payouts := old_rank
    let coin_cfg_local :=
      { coin_cfg with booster_multiplier := if inp.has_coin_booster then 2.0 else 1.0 }
    let exp_table := expTableOf exp_cfg
    let exp_cfg_local :=
      { exp_cfg with
          rank_place_caps := some exp_table,
          booster_multiplier := if inp.has_exp_booster then 2.0 else 1.0 }
    match settle_trophies_after_finish inp.player_index inp.finish_order inp.ratings
        trophy_cfg inp.last_place_delta_applied inp.place_index_for_i with
    | .error e => .error e
    | .ok settle =>
      match calculate_coins rank_label_for_payouts inp.place inp.ratings inp.player_index
          coin_cfg_local trophy_cfg with
      | .error e => .error e
      | .ok coins_amount =>
        match calculate_exp old_trophies inp.place inp.total_positions exp_cfg_local
            (some rank_label_for_payouts) with
        | .error e => .error e
        | .ok exp_amount =>
          let new_trophies := old_trophies + settle.settlement_delta
          let new_rank := get_rank_for_trophies new_trophies
          let promoted := decide (rank_index old_rank < rank_index new_rank)
          let demoted := decide (rank_index new_rank < rank_index old_rank)
          .ok ⟨settle.actual_trophies_delta, settle.settlement_delta, coins_amount,
            exp_amount, old_rank, new_rank, promoted, demoted,
            inp.last_place_delta_applied⟩

/-! ### Reference configurations (the dataclass defaults / smoke-test wiring) -/

/-- Default `TrophyConfig()`. -/
noncomputable def tcfg0 : TrophyConfig := {}

/-- `CoinConfig` wired with the hardcoded coin cap table, as in the smoke test. -/
noncomputable def ccfg0 : CoinConfig := { rank_max_by_place := some COIN_CAPS_BY_RANK }

/-- Default `ExpConfig()` (no caps table: orchestrator substitutes `EXP_CAPS_BY_RANK`). -/
noncomputable def xcfg0 : ExpConfig := {}

/-! ### Concrete evaluations at a two-player equal-rating lobby -/

lemma range_two : List.range 2 = [0, 1] := rfl

lemma precompute_eval :
    precompute_for_player 0 [0, 0] tcfg0 = .ok ⟨48, 1, [0, 1], [0, 1/2]⟩ := by
  unfold precompute_for_player
  norm_num [tcfg0, rawWeight, base_k, findK, high_rank_damping, expected,
    range_two, Real.exp_zero, Real.rpow_zero, Precomp.mk.injEq]

/-- `pyRound` at an integer. -/
@[simp] lemma pyRound_intCast (n : ℤ) : pyRound (n : ℝ) = n := by
  simp [pyRound, Int.fract_intCast]

lemma pyRound_natCast (n : ℕ) : pyRound (n : ℝ) = n := by
  rw [show ((n : ℝ)) = (((n : ℤ)) : ℝ) by push_cast ; ring, pyRound_intCast]

@[simp] lemma pyRound_ofNat (n : ℕ) [n.AtLeastTwo] :
    pyRound (no_index (OfNat.ofNat n) : ℝ) = OfNat.ofNat n := by
  rw [← Nat.cast_ofNat, pyRound_natCast]
  simp

@[simp] lemma pyRound_zero : pyRound (0 : ℝ) = 0 := by
  rw [show (0 : ℝ) = ((0 : ℤ) : ℝ) by norm_num, pyRound_intCast]

@[simp] lemma pyRound_one : pyRound (1 : ℝ) = 1 := by
  rw [show (1 : ℝ) = ((1 : ℤ) : ℝ) by norm_num, pyRound_intCast]

lemma pyRound_of_lt_half (x : ℝ) (n : ℤ) (h1 : (n : ℝ) ≤ x) (h2 : x < n + 1/2) :
    pyRound x = n := by
  have hf : ⌊x⌋ = n := Int.floor_eq_iff.mpr ⟨h1, by linarith⟩
  have hfr : Int.fract x = x - n := by rw [Int.fract, hf]
  rw [pyRound, if_pos]
  · exact hf
  · rw [hfr]; linarith

lemma pyRound_half_even (x : ℝ) (n : ℤ) (h1 : x = n + 1/2) (h2 : Even n) :
    pyRound x = n := by
  have hf : ⌊x⌋ = n := by
    apply Int.floor_eq_iff.mpr
    constructor <;> [linarith; linarith]
  have hfr : Int.fract x = 1/2 := by rw [Int.fract, hf, h1]; ring
  rw [pyRound, if_neg (by rw [hfr]; norm_num), if_neg (by rw [hfr]; norm_num), hf,
    if_pos h2]

/-- Trophy delta for winning the two-player equal lobby: +8 (per-pair clip binds). -/
lemma trophies_win_eval : calculate_trophies 0 [0, 1] [0, 0] tcfg0 none = .ok 8 := by
  unfold calculate_trophies
  rw [precompute_eval]
  show delta_at_finish_using_i 0 [0, 1] ⟨48, 1, [0, 1], [0, 1/2]⟩ 2 tcfg0 none = .ok 8
  unfold delta_at_finish_using_i
  have h8 : pyRound ((8 : ℝ)) = 8 := by
    rw [show ((8:ℝ)) = ((8:ℤ) : ℝ) by norm_num, pyRound_intCast]
  norm_num [pairContribution, range_two, tcfg0, List.getD, h8]

/-- Trophy delta for losing the two-player equal lobby: -8. -/
lemma trophies_lose_eval : calculate_trophies 0 [1, 0] [0, 0] tcfg0 none = .ok (-8) := by
  unfold calculate_trophies
  rw [precompute_eval]
  show delta_at_finish_using_i 0 [1, 0] ⟨48, 1, [0, 1], [0, 1/2]⟩ 2 tcfg0 none = .ok (-8)
  unfold delta_at_finish_using_i
  have h8 : pyRound ((-8 : ℝ)) = -8 := by
    rw [show ((-8:ℝ)) = ((-8:ℤ) : ℝ) by norm_num, pyRound_intCast]
  norm_num [pairContribution, range_two, tcfg0, List.getD, h8]

/-- Weighted average expectation in the two-player equal lobby is exactly 1/2. -/
lemma avgE_eval : avg_expected_vs_lobby 0 [0, 0] tcfg0 = .ok (1/2) := by
  unfold avg_expected_vs_lobby
  rw [precompute_eval]
  norm_num [range_two, List.getD]

/-- The difficulty multiplier at average expectation 1/2 is exactly 1. -/
lemma mult_half_eval (f c : ℝ) : difficulty_multiplier (1/2) f c = 1 := by
  unfold difficulty_multiplier
  norm_num

/-- Success path of `calculate_coins`, fully symbolic. -/
lemma calculate_coins_ok (rank_label : String) (place : ℤ) (lobby : List ℤ) (i : ℕ)
    (cc : CoinConfig) (tc : TrophyConfig) (table : List (String × List ℤ))
    (caps : List ℤ) (avgE : ℝ)
    (h1 : cc.rank_max_by_place = some table)
    (h2 : table.lookup rank_label = some caps)
    (h3 : caps ≠ [])
    (h4 : 1 ≤ place) (h5 : place ≤ (caps.length : ℤ))
    (h6 : avg_expected_vs_lobby i lobby tc = .ok avgE) :
    calculate_coins rank_label place lobby i cc tc =
      .ok (max 0 (pyRound ((((caps.getD (place - 1).toNat 0 : ℤ)) : ℝ) *
        difficulty_multiplier avgE cc.difficulty_floor cc.difficulty_ceiling *
        cc.booster_multiplier / ((cc.round_to : ℤ) : ℝ)) * cc.round_to)) := by
  unfold calculate_coins
  simp only [h1, h2, h6]
  rw [if_neg]
  push_neg
  exact ⟨h3, h4, h5⟩

/-- Unboosted coins for Bronze I, place 2, in the equal two-player lobby:
1650 / 100 = 16.5 rounds half-to-even to 16, so 1600 coins. -/
lemma coins_bronze_eval :
    calculate_coins "Bronze I" 2 [0, 0] 0 ccfg0 tcfg0 = .ok 1600 := by
  rw [calculate_coins_ok "Bronze I" 2 [0, 0] 0 ccfg0 tcfg0 COIN_CAPS_BY_RANK
    [2200, 1650, 1300, 1000, 1000, 1000, 1000, 1000] (1/2) rfl rfl (by decide)
    (by decide) (by decide) avgE_eval]
  have h16 : pyRound ((33 : ℝ) / 2) = 16 :=
    pyRound_half_even _ 16 (by norm_num) (by decide)
  norm_num [ccfg0, mult_half_eval, List.getD]
  rw [h16]
  norm_num

/-- Boosted (×2) coins for Bronze I, place 2, equal two-player lobby:
3300 / 100 = 33 rounds to 33, so 3300 coins — not twice 1600. -/
lemma coins_bronze_boost_eval :
    calculate_coins "Bronze I" 2 [0, 0] 0 { ccfg0 with booster_multiplier := 2.0 } tcfg0 =
      .ok 3300 := by
  rw [calculate_coins_ok "Bronze I" 2 [0, 0] 0 _ tcfg0 COIN_CAPS_BY_RANK
    [2200, 1650, 1300, 1000, 1000, 1000, 1000, 1000] (1/2) rfl rfl (by decide)
    (by decide) (by decide) avgE_eval]
  norm_num [ccfg0, mult_half_eval, List.getD]

/-- Success (table-mode) path of `calculate_exp`, fully symbolic. -/
lemma calculate_exp_table_ok (trophies place total_positions : ℤ) (cfg : ExpConfig)
    (rl : String) (table : List (String × List ℤ)) (caps : List ℤ)
    (h0 : cfg.rank_place_caps = some table)
    (h2 : table.lookup rl = some caps)
    (h3 : caps ≠ [])
    (h4 : 1 ≤ place) (h5 : place ≤ (caps.length : ℤ)) :
    calculate_exp trophies place total_positions cfg (some rl) =
      .ok (max 0 (pyRound (((caps.getD (place - 1).toNat 0 : ℤ) : ℝ) *
        cfg.booster_multiplier))) := by
  unfold calculate_exp
  simp only [h0, h2]
  rw [if_neg]
  push_neg
  exact ⟨h3, h4, h5⟩

/-- Looking up the lowest rank in the generated EXP table. -/
lemma exp_caps_unranked :
    EXP_CAPS_BY_RANK.lookup "Unranked" =
      some (exp_place_mults.map (fun m => pyRound (exp_base_for_rank "Unranked" 100 208 * m))) := by
  simp [EXP_CAPS_BY_RANK, RANK_LABELS, RANK_THRESHOLDS, List.lookup]

/-- Base EXP for the lowest rank is exactly 100. -/
lemma exp_base_unranked : exp_base_for_rank "Unranked" 100 208 = 100 := by
  unfold exp_base_for_rank
  rw [if_pos (by decide : "Unranked" ∈ RANK_LABELS)]
  norm_num [show RANK_LABELS.indexOf "Unranked" = 0 from rfl,
    show RANK_LABELS.length = 28 from rfl]

/-- Table-mode EXP for the lowest rank, place 1, no booster: 120. -/
lemma exp_unranked_eval (cfg : ExpConfig) (tr tp : ℤ)
    (h1 : cfg.rank_place_caps = some EXP_CAPS_BY_RANK)
    (h2 : cfg.booster_multiplier = 1.0) :
    calculate_exp tr 1 tp cfg (some "Unranked") = .ok 120 := by
  rw [calculate_exp_table_ok tr 1 tp cfg "Unranked" EXP_CAPS_BY_RANK _ h1 exp_caps_unranked
    (by simp [exp_place_mults]) (by norm_num) (by simp [exp_place_mults])]
  have hcap : (exp_place_mults.map
      (fun m => pyRound (exp_base_for_rank "Unranked" 100 208 * m))).getD ((1 - 1 : ℤ)).toNat 0 =
      pyRound ((100 : ℝ) * 1.20) := by
    simp [exp_place_mults, exp_base_unranked, List.getD]
  rw [hcap, show (100 : ℝ) * 1.20 = ((120 : ℤ) : ℝ) by norm_num, pyRound_intCast, h2]
  rw [show ((120 : ℤ) : ℝ) * (1.0 : ℝ) = ((120 : ℤ) : ℝ) by norm_num, pyRound_intCast]
  rfl

/-- Unboosted coins for the lowest rank, place 1, equal two-player lobby: 2000. -/
lemma coins_unranked_eval (cc : CoinConfig) (tc : TrophyConfig)
    (h1 : cc.rank_max_by_place = some COIN_CAPS_BY_RANK)
    (h2 : cc.booster_multiplier = 1.0) (h3 : cc.round_to = 100) (h4 : tc = tcfg0) :
    calculate_coins "Unranked" 1 [0, 0] 0 cc tc = .ok 2000 := by
  subst h4
  rw [calculate_coins_ok "Unranked" 1 [0, 0] 0 cc tcfg0 COIN_CAPS_BY_RANK
    [2000, 1500, 1200, 900, 900, 900, 900, 900] (1/2) h1 rfl (by decide)
    (by decide) (by decide) avgE_eval]
  rw [mult_half_eval, h2, h3]
  norm_num [List.getD]

/-- Settlement for winning the equal two-player lobby with pre-deduction -8. -/
lemma settle_eval :
    settle_trophies_after_finish 0 [0, 1] [0, 0] tcfg0 (-8) none = .ok ⟨8, 16⟩ := by
  unfold settle_trophies_after_finish
  simp only [trophies_win_eval]
  norm_num

/-- Concrete finish-time input: equal two-player lobby, player 0 wins,
pre-deduction -8 was applied at race start. -/
def inp0 : RaceInputsWithPrededuction := ⟨0, [0, 1], [0, 0], 1, 2, false, false, -8, none⟩

/-- Full orchestrator run on `inp0`. -/
lemma orchestrator_eval :
    compute_race_rewards_with_prededuction inp0 tcfg0 ccfg0 xcfg0 =
      .ok ⟨8, 16, 2000, 120, "Unranked", "Unranked", false, false, -8⟩ := by
  unfold compute_race_rewards_with_prededuction
  simp only [inp0, xcfg0]
  simp only [List.get?_cons_zero, settle_eval,
    show get_rank_for_trophies 0 = "Unranked" from rfl]
  rw [coins_unranked_eval _ _ rfl rfl rfl rfl, exp_unranked_eval _ _ _ rfl rfl]
  rfl

/-! ### Claim theorems -/

/-- C1: `settle_trophies_after_finish` returns `settlement_delta = actual_delta -
last_place_delta_applied` where `actual_delta` is `calculate_trophies` on the real
finish order, and applying pre-deduction then settlement equals applying the
actual delta in one step. -/
theorem claim_C1 (i : ℕ) (fo : List ℕ) (ratings : List ℤ) (cfg : TrophyConfig)
    (pre : ℤ) (popt : Option ℕ) (s : RaceSettlement)
    (h : settle_trophies_after_finish i fo ratings cfg pre popt = .ok s) :
    calculate_trophies i fo ratings cfg popt = .ok s.actual_trophies_delta ∧
    s.settlement_delta = s.actual_trophies_delta - pre ∧
    ∀ r0 : ℤ, (r0 + pre) + s.settlement_delta = r0 + s.actual_trophies_delta := by
  unfold settle_trophies_after_finish at h
  cases hc : calculate_trophies i fo ratings cfg popt with
  | error e =>
    simp only [hc] at h
    exact Except.noConfusion h
  | ok a =>
    simp only [hc] at h
    have hs : s = ⟨a, a - pre⟩ := (Except.ok.inj h).symm
    subst hs
    exact ⟨rfl, rfl, fun r0 => by ring⟩

/-- Witness for C1 at the concrete two-player lobby. -/
theorem claim_C1_witness :
    settle_trophies_after_finish 0 [0, 1] [0, 0] tcfg0 (-8) none = .ok ⟨8, 16⟩ ∧
    calculate_trophies 0 [0, 1] [0, 0] tcfg0 none = .ok 8 ∧
    (16 : ℤ) = 8 - (-8) ∧ ((100 : ℤ) + (-8)) + 16 = 100 + 8 := by
  refine ⟨settle_eval, ?_, ?_, ?_⟩
  · exact (claim_C1 0 [0, 1] [0, 0] tcfg0 (-8) none ⟨8, 16⟩ settle_eval).1
  · exact (claim_C1 0 [0, 1] [0, 0] tcfg0 (-8) none ⟨8, 16⟩ settle_eval).2.1
  · exact (claim_C1 0 [0, 1] [0, 0] tcfg0 (-8) none ⟨8, 16⟩ settle_eval).2.2 100

/-- C3: every successfully computed trophy delta is clamped into
`[CLAMP_MIN, CLAMP_MAX]` (for a configuration whose clamp interval is nonempty). -/
theorem claim_C3 (i : ℕ) (fo : List ℕ) (ratings : List ℤ) (cfg : TrophyConfig)
    (popt : Option ℕ) (d : ℤ) (hcl : cfg.CLAMP_MIN ≤ cfg.CLAMP_MAX)
    (h : calculate_trophies i fo ratings cfg popt = .ok d) :
    cfg.CLAMP_MIN ≤ d ∧ d ≤ cfg.CLAMP_MAX := by
  unfold calculate_trophies at h
  cases hp : precompute_for_player i ratings cfg with
  | error e =>
    simp only [hp] at h
    exact Except.noConfusion h
  | ok pre =>
    simp only [hp] at h
    unfold delta_at_finish_using_i at h
    split at h
    · simp at h
    · have h' := Except.ok.inj h
      subst h'
      split_ifs <;> omega

/-- Witness for C3 at the concrete two-player lobby. -/
theorem claim_C3_witness :
    tcfg0.CLAMP_MIN ≤ tcfg0.CLAMP_MAX ∧
    calculate_trophies 0 [0, 1] [0, 0] tcfg0 none = .ok 8 ∧
    tcfg0.CLAMP_MIN ≤ (8 : ℤ) ∧ (8 : ℤ) ≤ tcfg0.CLAMP_MAX := by
  refine ⟨by norm_num [tcfg0], trophies_win_eval, ?_⟩
  exact claim_C3 0 [0, 1] [0, 0] tcfg0 none 8 (by norm_num [tcfg0]) trophies_win_eval

/-- The per-pair contribution depends on the finished-before list only through
membership of the opponent. -/
lemma pairContribution_congr (pre : Precomp) (cfg : TrophyConfig)
    (fb1 fb2 : List ℕ) (j : ℕ) (h : j ∈ fb1 ↔ j ∈ fb2) :
    pairContribution pre cfg fb1 j = pairContribution pre cfg fb2 j := by
  unfold pairContribution
  by_cases hj : j ∈ fb1
  · rw [if_pos hj, if_pos (h.mp hj)]
  · rw [if_neg hj, if_neg (fun hh => hj (h.mpr hh))]

/-- C2: when player `i` finishes last (every other participant ahead of it, in any
order), `calculate_trophies` agrees with `calculate_last_place_delta`; hence the
settlement against a pre-deduction of exactly that amount is 0. -/
theorem claim_C2 (i : ℕ) (opp : List ℕ) (ratings : List ℤ) (cfg : TrophyConfig)
    (h1 : i ∉ opp) (h2 : ∀ j, j < ratings.length → j ≠ i → j ∈ opp) :
    calculate_trophies i (opp ++ [i]) ratings cfg none =
      calculate_last_place_delta i ratings cfg ∧
    ∀ d, calculate_last_place_delta i ratings cfg = .ok d →
      settle_trophies_after_finish i (opp ++ [i]) ratings cfg d none = .ok ⟨d, 0⟩ := by
  have key : calculate_trophies i (opp ++ [i]) ratings cfg none =
      calculate_last_place_delta i ratings cfg := by
    unfold calculate_last_place_delta calculate_trophies
    cases hp : precompute_for_player i ratings cfg with
    | error e => simp only [hp]
    | ok pre =>
      simp only [hp]
      have hmem1 : i ∈ opp ++ [i] := by simp
      have hmem2 : i ∈ synthetic_last_place_finish_order ratings.length i := by
        simp [synthetic_last_place_finish_order]
      have hnot2 : i ∉ (List.range ratings.length).filter (fun j => decide (j ≠ i)) := by
        simp
      have t1 : (opp ++ [i]).take ((opp ++ [i]).indexOf i) = opp := by
        rw [List.indexOf_append_of_not_mem h1]
        simp [List.indexOf_cons_self]
      have t2 : (synthetic_last_place_finish_order ratings.length i).take
          ((synthetic_last_place_finish_order ratings.length i).indexOf i) =
          (List.range ratings.length).filter (fun j => decide (j ≠ i)) := by
        unfold synthetic_last_place_finish_order
        rw [List.indexOf_append_of_not_mem hnot2]
        simp [List.indexOf_cons_self]
      unfold delta_at_finish_using_i
      rw [if_pos hmem1, if_pos hmem2, t1, t2]
      have hmap : (List.range ratings.length).map
          (fun j => if j = i then 0 else pairContribution pre cfg opp j) =
          (List.range ratings.length).map
          (fun j => if j = i then 0 else pairContribution pre cfg
            ((List.range ratings.length).filter (fun j => decide (j ≠ i))) j) := by
        apply List.map_congr_left
        intro j hj
        by_cases hji : j = i
        · rw [if_pos hji, if_pos hji]
        · rw [if_neg hji, if_neg hji]
          apply pairContribution_congr
          exact iff_of_true (h2 j (List.mem_range.mp hj) hji)
            (List.mem_filter.mpr ⟨hj, by simpa using hji⟩)
      simp only [hmap]
  refine ⟨key, fun d hd => ?_⟩
  unfold settle_trophies_after_finish
  simp only [key, hd, sub_self]

/-- Witness for C2 at the concrete two-player lobby (opponent list `[1]`). -/
theorem claim_C2_witness :
    (0 : ℕ) ∉ [1] ∧ (∀ j, j < 2 → j ≠ 0 → j ∈ [1]) ∧
    calculate_last_place_delta 0 [0, 0] tcfg0 = .ok (-8) ∧
    settle_trophies_after_finish 0 ([1] ++ [0]) [0, 0] tcfg0 (-8) none =
      .ok ⟨-8, 0⟩ := by
  have h1 : (0 : ℕ) ∉ [1] := by decide
  have h2 : ∀ j, j < ([0, 0] : List ℤ).length → j ≠ 0 → j ∈ [1] := by decide
  have hlast : calculate_last_place_delta 0 [0, 0] tcfg0 = .ok (-8) := by
    rw [← (claim_C2 0 [1] [0, 0] tcfg0 h1 h2).1]
    exact trophies_lose_eval
  exact ⟨h1, by decide, hlast, (claim_C2 0 [1] [0, 0] tcfg0 h1 h2).2 (-8) hlast⟩

/-! ### Helpers for lobby-wide sums -/

lemma getD_map_range (n j : ℕ) (hj : j < n) (f : ℕ → ℝ) :
    ((List.range n).map f).getD j 0 = f j := by
  rw [List.getD_eq_get?, List.get?_map, List.get?_range hj]
  rfl

lemma sum_range_ite_const (n i : ℕ) (hi : i < n) (c : ℝ) :
    ((List.range n).map (fun j => if j = i then 0 else c)).sum = ((n - 1 : ℕ) : ℝ) * c := by
  induction n with
  | zero => omega
  | succ m ih =>
    rw [List.range_succ, List.map_append, List.sum_append]
    by_cases him : i = m
    · subst him
      have hmap : (List.range i).map (fun j => if j = i then 0 else c) =
          (List.range i).map (fun _ => c) :=
        List.map_congr_left (fun j hj => if_neg (by
          have := List.mem_range.mp hj; omega))
      rw [hmap]
      simp [List.sum_replicate, List.map_const, Nat.add_sub_cancel]
    · have hi' : i < m := by omega
      rw [ih hi']
      have h2 : m ≠ i := fun hh => him hh.symm
      simp [if_neg h2]
      have : (1 : ℕ) ≤ m := by omega
      push_cast [this]
      ring

lemma list_sum_div (l : List ℝ) (t : ℝ) : (l.map (fun x => x / t)).sum = l.sum / t := by
  induction l with
  | nil => simp
  | cons a as ih => simp [ih, add_div]

/-- In an all-equal lobby the precomputation yields uniform weights `1/(n-1)` and
expectations exactly `1/2`. -/
lemma precompute_equal (c : ℤ) (ratings : List ℤ) (i : ℕ) (cfg : TrophyConfig)
    (hall : ∀ r ∈ ratings, r = c) (hn : 2 ≤ ratings.length) (hi : i < ratings.length) :
    precompute_for_player i ratings cfg =
      .ok ⟨base_k ((c : ℤ) : ℝ) cfg, high_rank_damping ((c : ℤ) : ℝ) cfg,
        (List.range ratings.length).map (fun j => if j = i then 0 else
          (1 : ℝ) / ((ratings.length - 1 : ℕ) : ℝ)),
        (List.range ratings.length).map (fun j => if j = i then 0 else (1 : ℝ) / 2)⟩ := by
  have hget : ratings.get? i = some c := by
    cases hg : ratings.get? i with
    | none =>
      have := List.get?_eq_none.mp hg
      omega
    | some v =>
      have hv : v ∈ ratings := List.get?_mem hg
      rw [hall v hv]
  have hgetD : ∀ j, j < ratings.length → ratings.getD j 0 = c := by
    intro j hj
    rw [List.getD_eq_get?, List.get?_eq_get hj, Option.getD_some]
    exact hall _ (List.get_mem ratings j hj)
  set w0 : ℝ := if (1 : ℝ) < cfg.W_MIN then cfg.W_MIN else 1 with hw0def
  have hw0pos : 0 < w0 := by
    rw [hw0def]
    split_ifs with h
    · linarith
    · norm_num
  have hraw : ∀ j, j < ratings.length → rawWeight ((c : ℤ) : ℝ) ratings cfg j = w0 := by
    intro j hj
    unfold rawWeight
    rw [hgetD j hj]
    simp [Real.exp_zero]
  have hnm1 : (0 : ℝ) < ((ratings.length - 1 : ℕ) : ℝ) := by
    have : 1 ≤ ratings.length - 1 := by omega
    exact_mod_cast Nat.lt_of_lt_of_le Nat.zero_lt_one this
  have htot : ((List.range ratings.length).map (fun j =>
      if j = i then 0 else rawWeight ((c : ℤ) : ℝ) ratings cfg j)).sum =
      ((ratings.length - 1 : ℕ) : ℝ) * w0 := by
    have hmap : (List.range ratings.length).map (fun j =>
        if j = i then 0 else rawWeight ((c : ℤ) : ℝ) ratings cfg j) =
        (List.range ratings.length).map (fun j => if j = i then 0 else w0) :=
      List.map_congr_left (fun j hj => by
        by_cases hji : j = i
        · rw [if_pos hji, if_pos hji]
        · rw [if_neg hji, if_neg hji, hraw j (List.mem_range.mp hj)])
    rw [hmap, sum_range_ite_const _ _ hi]
  unfold precompute_for_player
  simp only [hget]
  rw [Except.ok.injEq, Precomp.mk.injEq]
  refine ⟨rfl, rfl, ?_, ?_⟩
  · rw [htot, if_pos (mul_pos hnm1 hw0pos)]
    apply List.map_congr_left
    intro j hj
    by_cases hji : j = i
    · rw [if_pos hji, if_pos hji]
    · rw [if_neg hji, if_neg hji, hraw j (List.mem_range.mp hj)]
      rw [mul_comm, ← div_div, div_self (ne_of_gt hw0pos)]
  · apply List.map_congr_left
    intro j hj
    by_cases hji : j = i
    · rw [if_pos hji, if_pos hji]
    · rw [if_neg hji, if_neg hji]
      unfold expected
      rw [hgetD j (List.mem_range.mp hj), sub_self, zero_div, Real.rpow_zero]
      norm_num

/-- C5: in an all-equal lobby the weighted average expectation is exactly 1/2 and
the difficulty multiplier is exactly 1 for any floor/ceiling. -/
theorem claim_C5 (ratings : List ℤ) (c : ℤ) (i : ℕ) (cfg : TrophyConfig)
    (floor ceiling : ℝ)
    (hall : ∀ r ∈ ratings, r = c) (hn : 2 ≤ ratings.length) (hi : i < ratings.length)
    (hD : cfg.D ≠ 0) (hTAU : cfg.TAU ≠ 0) :
    avg_expected_vs_lobby i ratings cfg = .ok (1/2) ∧
    difficulty_multiplier (1/2) floor ceiling = 1 := by
  refine ⟨?_, mult_half_eval floor ceiling⟩
  unfold avg_expected_vs_lobby
  simp only [precompute_equal c ratings i cfg hall hn hi]
  rw [Except.ok.injEq, List.length_map, List.length_range]
  have hmap : (List.range ratings.length).map (fun j =>
      if j = i then 0 else
        ((List.range ratings.length).map (fun j' => if j' = i then 0 else
          (1 : ℝ) / ((ratings.length - 1 : ℕ) : ℝ))).getD j 0 *
        ((List.range ratings.length).map (fun j' => if j' = i then 0 else
          (1 : ℝ) / 2)).getD j 0) =
      (List.range ratings.length).map (fun j =>
        if j = i then 0 else (1 / ((ratings.length - 1 : ℕ) : ℝ)) * (1/2)) := by
    apply List.map_congr_left
    intro j hj
    by_cases hji : j = i
    · rw [if_pos hji, if_pos hji]
    · rw [if_neg hji, if_neg hji, getD_map_range _ _ (List.mem_range.mp hj),
        getD_map_range _ _ (List.mem_range.mp hj), if_neg hji, if_neg hji]
  rw [hmap, sum_range_ite_const _ _ hi]
  have h1 : (0 : ℝ) < ((ratings.length - 1 : ℕ) : ℝ) := by
    exact_mod_cast (by omega : 0 < ratings.length - 1)
  field_simp
  have hcast : (2 : ℝ) ≤ (ratings.length : ℝ) := by exact_mod_cast hn
  rw [div_self (ne_of_gt (mul_pos (by linarith) two_pos))]

/-- Witness for C5 at the equal two-player lobby. -/
theorem claim_C5_witness :
    (∀ r ∈ ([0, 0] : List ℤ), r = 0) ∧ 2 ≤ ([0, 0] : List ℤ).length ∧
    0 < ([0, 0] : List ℤ).length ∧ tcfg0.D ≠ 0 ∧ tcfg0.TAU ≠ 0 ∧
    avg_expected_vs_lobby 0 [0, 0] tcfg0 = .ok (1/2) ∧
    difficulty_multiplier (1/2) 0.85 1.15 = 1 := by
  have h := claim_C5 [0, 0] 0 0 tcfg0 0.85 1.15 (by decide) (by decide) (by decide)
    (by norm_num [tcfg0]) (by norm_num [tcfg0])
  exact ⟨by decide, by decide, by decide, by norm_num [tcfg0], by norm_num [tcfg0],
    h.1, h.2⟩

/-- Raw (pre-normalization) opponent-weight total computed at race start. -/
noncomputable def raw_weight_total (i : ℕ) (ratings : List ℤ) (cfg : TrophyConfig) : ℝ :=
  ((List.range ratings.length).map (fun j =>
    if j = i then 0 else rawWeight ((ratings.getD i 0 : ℤ) : ℝ) ratings cfg j)).sum

/-- C9: for a valid player index the precomputation never fails; with a positive
raw weight total the normalized weights sum to 1, and with a zero total every
opponent gets the equal split `1/(n-1)`.  The nonzero `TAU`/`D` hypotheses mark
exactly the configurations where the Python source would instead raise
`ZeroDivisionError` in the weight/expectation divisions. -/
theorem claim_C9 (i : ℕ) (ratings : List ℤ) (cfg : TrophyConfig)
    (hi : i < ratings.length) (hn : 2 ≤ ratings.length)
    (hTAU : cfg.TAU ≠ 0) (hD : cfg.D ≠ 0) :
    ∃ pre, precompute_for_player i ratings cfg = .ok pre ∧
      (0 < raw_weight_total i ratings cfg → pre.w.sum = 1) ∧
      (raw_weight_total i ratings cfg = 0 → ∀ j, j < ratings.length → j ≠ i →
        pre.w.getD j 0 = 1 / ((ratings.length - 1 : ℕ) : ℝ)) := by
  have hget : ratings.get? i = some (ratings.get ⟨i, hi⟩) := List.get?_eq_get hi
  have hgetD : ratings.getD i 0 = ratings.get ⟨i, hi⟩ := by
    rw [List.getD_eq_get?, hget, Option.getD_some]
  have htot_eq : ((List.range ratings.length).map (fun j =>
      if j = i then 0 else
        rawWeight ((ratings.get ⟨i, hi⟩ : ℤ) : ℝ) ratings cfg j)).sum =
      raw_weight_total i ratings cfg := by
    rw [raw_weight_total, hgetD]
  unfold precompute_for_player
  simp only [hget]
  refine ⟨_, rfl, ?_, ?_⟩
  · intro hpos
    show (if 0 < ((List.range ratings.length).map (fun j =>
        if j = i then 0 else
          rawWeight ((ratings.get ⟨i, hi⟩ : ℤ) : ℝ) ratings cfg j)).sum then
        (List.range ratings.length).map (fun j => if j = i then 0 else
          rawWeight ((ratings.get ⟨i, hi⟩ : ℤ) : ℝ) ratings cfg j /
            ((List.range ratings.length).map (fun j' => if j' = i then 0 else
              rawWeight ((ratings.get ⟨i, hi⟩ : ℤ) : ℝ) ratings cfg j')).sum)
      else
        (List.range ratings.length).map (fun j => if j = i then 0 else
          1 / ((ratings.length - 1 : ℕ) : ℝ))).sum = 1
    rw [htot_eq, if_pos hpos]
    have hmap : (List.range ratings.length).map (fun j => if j = i then 0 else
        rawWeight ((ratings.get ⟨i, hi⟩ : ℤ) : ℝ) ratings cfg j /
          raw_weight_total i ratings cfg) =
        ((List.range ratings.length).map (fun j => if j = i then 0 else
          rawWeight ((ratings.get ⟨i, hi⟩ : ℤ) : ℝ) ratings cfg j)).map
          (fun x => x / raw_weight_total i ratings cfg) := by
      rw [List.map_map]
      apply List.map_congr_left
      intro j hj
      by_cases hji : j = i
      · simp [hji]
      · simp [hji]
    rw [hmap, list_sum_div, htot_eq, div_self (ne_of_gt hpos)]
  · intro hzero j hj hji
    show ((if 0 < ((List.range ratings.length).map (fun j =>
        if j = i then 0 else
          rawWeight ((ratings.get ⟨i, hi⟩ : ℤ) : ℝ) ratings cfg j)).sum then
        (List.range ratings.length).map (fun j => if j = i then 0 else
          rawWeight ((ratings.get ⟨i, hi⟩ : ℤ) : ℝ) ratings cfg j /
            ((List.range ratings.length).map (fun j' => if j' = i then 0 else
              rawWeight ((ratings.get ⟨i, hi⟩ : ℤ) : ℝ) ratings cfg j')).sum)
      else
        (List.range ratings.length).map (fun j => if j = i then 0 else
          1 / ((ratings.length - 1 : ℕ) : ℝ)))).getD j 0 =
      1 / ((ratings.length - 1 : ℕ) : ℝ)
    rw [htot_eq, hzero, if_neg (lt_irrefl 0), getD_map_range _ _ hj, if_neg hji]

/-- Witness for C9 at the equal two-player lobby. -/
theorem claim_C9_witness :
    0 < ([0, 0] : List ℤ).length ∧ 2 ≤ ([0, 0] : List ℤ).length ∧
    tcfg0.TAU ≠ 0 ∧ tcfg0.D ≠ 0 ∧
    ∃ pre, precompute_for_player 0 [0, 0] tcfg0 = .ok pre ∧
      (0 < raw_weight_total 0 [0, 0] tcfg0 → pre.w.sum = 1) ∧
      (raw_weight_total 0 [0, 0] tcfg0 = 0 → ∀ j, j < ([0, 0] : List ℤ).length → j ≠ 0 →
        pre.w.getD j 0 = 1 / ((([0, 0] : List ℤ).length - 1 : ℕ) : ℝ)) :=
  ⟨by decide, by decide, by norm_num [tcfg0], by norm_num [tcfg0],
    claim_C9 0 [0, 0] tcfg0 (by decide) (by decide) (by norm_num [tcfg0])
      (by norm_num [tcfg0])⟩

/-! ### Rank-table facts -/

lemma rank_thresholds_rev_desc :
    (RANK_THRESHOLDS.reverse).Pairwise (fun a b => b.1 ≤ a.1) := by decide

lemma rank_thresholds_index_mono :
    ∀ p ∈ RANK_THRESHOLDS, ∀ q ∈ RANK_THRESHOLDS, p.1 ≤ q.1 →
      rank_index p.2 ≤ rank_index q.2 := by decide

lemma rank_thresholds_nonneg : ∀ p ∈ RANK_THRESHOLDS, (0 : ℤ) ≤ p.1 := by decide

/-- On a descending list, `find?` with the inclusive-threshold predicate returns a
maximal satisfying element. -/
lemma find?_desc_max (l : List (ℤ × String)) (t : ℤ)
    (hd : l.Pairwise (fun a b => b.1 ≤ a.1)) (a : ℤ × String)
    (ha : l.find? (fun p => decide (p.1 ≤ t)) = some a) :
    ∀ b ∈ l, b.1 ≤ t → b.1 ≤ a.1 := by
  induction l with
  | nil => simp at ha
  | cons c rest ih =>
    by_cases hc : c.1 ≤ t
    · rw [List.find?_cons_of_pos _ (by simpa using hc)] at ha
      injection ha with ha'
      subst ha'
      intro b hb hbt
      rcases List.mem_cons.mp hb with rfl | hb'
      · exact le_refl _
      · exact (List.pairwise_cons.mp hd).1 b hb'
    · rw [List.find?_cons_of_neg _ (by simpa using hc)] at ha
      intro b hb hbt
      rcases List.mem_cons.mp hb with rfl | hb'
      · exact absurd hbt hc
      · exact ih (List.pairwise_cons.mp hd).2 ha b hb' hbt

/-- C6: `get_rank_for_trophies` picks the label of the highest threshold ≤ rating
(inclusive: 750 and 749 map differently), is monotone non-decreasing in the rating
(by rank ordinal), and every rating below the lowest threshold maps to the lowest
label `"Unranked"`. -/
theorem claim_C6 :
    (∀ t : ℤ, 0 ≤ t → ∃ p, p ∈ RANK_THRESHOLDS ∧ get_rank_for_trophies t = p.2 ∧
      p.1 ≤ t ∧ ∀ q ∈ RANK_THRESHOLDS, q.1 ≤ t → q.1 ≤ p.1) ∧
    get_rank_for_trophies 750 ≠ get_rank_for_trophies 749 ∧
    (∀ t1 t2 : ℤ, t1 ≤ t2 →
      rank_index (get_rank_for_trophies t1) ≤ rank_index (get_rank_for_trophies t2)) ∧
    (∀ t : ℤ, t < 0 → get_rank_for_trophies t = "Unranked") := by
  refine ⟨?_, by decide, ?_, ?_⟩
  · intro t ht
    cases hf : RANK_THRESHOLDS.reverse.find? (fun p => decide (p.1 ≤ t)) with
    | none =>
      exfalso
      have := List.find?_eq_none.mp hf (0, "Unranked") (by decide)
      simp at this
      omega
    | some p =>
      have hp1 : p.1 ≤ t := by simpa using List.find?_some hf
      have hpmem : p ∈ RANK_THRESHOLDS := List.mem_reverse.mp (List.mem_of_find?_eq_some hf)
      have hmax : ∀ q ∈ RANK_THRESHOLDS, q.1 ≤ t → q.1 ≤ p.1 := fun q hq hqt =>
        find?_desc_max _ t rank_thresholds_rev_desc p hf q (List.mem_reverse.mpr hq) hqt
      refine ⟨p, hpmem, ?_, hp1, hmax⟩
      unfold get_rank_for_trophies
      rw [hf]
  · intro t1 t2 h12
    cases hf1 : RANK_THRESHOLDS.reverse.find? (fun p => decide (p.1 ≤ t1)) with
    | none =>
      have hv : get_rank_for_trophies t1 = "Unranked" := by
        unfold get_rank_for_trophies
        rw [hf1]
      rw [hv]
      exact Nat.zero_le _
    | some p1 =>
      have hp1 : p1.1 ≤ t1 := by simpa using List.find?_some hf1
      have hp1mem : p1 ∈ RANK_THRESHOLDS :=
        List.mem_reverse.mp (List.mem_of_find?_eq_some hf1)
      cases hf2 : RANK_THRESHOLDS.reverse.find? (fun p => decide (p.1 ≤ t2)) with
      | none =>
        exfalso
        have := List.find?_eq_none.mp hf2 p1 (List.mem_reverse.mpr hp1mem)
        simp at this
        omega
      | some p2 =>
        have hp2mem : p2 ∈ RANK_THRESHOLDS :=
          List.mem_reverse.mp (List.mem_of_find?_eq_some hf2)
        have hmax2 : p1.1 ≤ p2.1 :=
          find?_desc_max _ t2 rank_thresholds_rev_desc p2 hf2 p1
            (List.mem_reverse.mpr hp1mem) (by omega)
        have hv1 : get_rank_for_trophies t1 = p1.2 := by
          unfold get_rank_for_trophies
          rw [hf1]
        have hv2 : get_rank_for_trophies t2 = p2.2 := by
          unfold get_rank_for_trophies
          rw [hf2]
        rw [hv1, hv2]
        exact rank_thresholds_index_mono p1 hp1mem p2 hp2mem hmax2
  · intro t ht
    have hf : RANK_THRESHOLDS.reverse.find? (fun p => decide (p.1 ≤ t)) = none := by
      apply List.find?_eq_none.mpr
      intro x hx
      have h0 : (0 : ℤ) ≤ x.1 :=
        rank_thresholds_nonneg x (List.mem_reverse.mp hx)
      simp only [decide_eq_true_eq]
      omega
    unfold get_rank_for_trophies
    rw [hf]

/-- Witness for C6 at concrete ratings. -/
theorem claim_C6_witness :
    (0 : ℤ) ≤ 1000 ∧
    (∃ p, p ∈ RANK_THRESHOLDS ∧ get_rank_for_trophies 1000 = p.2 ∧
      p.1 ≤ 1000 ∧ ∀ q ∈ RANK_THRESHOLDS, q.1 ≤ 1000 → q.1 ≤ p.1) ∧
    get_rank_for_trophies 750 ≠ get_rank_for_trophies 749 ∧
    (100 : ℤ) ≤ 2000 ∧
    rank_index (get_rank_for_trophies 100) ≤ rank_index (get_rank_for_trophies 2000) ∧
    (-5 : ℤ) < 0 ∧ get_rank_for_trophies (-5) = "Unranked" :=
  ⟨by decide, claim_C6.1 1000 (by decide), claim_C6.2.1, by decide,
    claim_C6.2.2.1 100 2000 (by decide), by decide, claim_C6.2.2.2 (-5) (by decide)⟩

/-- Successful orchestrator runs decompose into their components. -/
lemma compute_ok_decompose (inp : RaceInputsWithPrededuction) (tc : TrophyConfig)
    (cc : CoinConfig) (xc : ExpConfig) (r : RaceRewardsWithSettlement)
    (h : compute_race_rewards_with_prededuction inp tc cc xc = .ok r) :
    ∃ old_trophies settle coins_amount exp_amount,
      inp.ratings.get? inp.player_index = some old_trophies ∧
      settle_trophies_after_finish inp.player_index inp.finish_order inp.ratings tc
        inp.last_place_delta_applied inp.place_index_for_i = .ok settle ∧
      calculate_coins (get_rank_for_trophies old_trophies) inp.place inp.ratings
        inp.player_index
        { cc with booster_multiplier := if inp.has_coin_booster then 2.0 else 1.0 } tc =
        .ok coins_amount ∧
      calculate_exp old_trophies inp.place inp.total_positions
        { xc with
            rank_place_caps := some (expTableOf xc),
            booster_multiplier := if inp.has_exp_booster then 2.0 else 1.0 }
        (some (get_rank_for_trophies old_trophies)) = .ok exp_amount ∧
      r = ⟨settle.actual_trophies_delta, settle.settlement_delta, coins_amount, exp_amount,
        get_rank_for_trophies old_trophies,
        get_rank_for_trophies (old_trophies + settle.settlement_delta),
        decide (rank_index (get_rank_for_trophies old_trophies) <
          rank_index (get_rank_for_trophies (old_trophies + settle.settlement_delta))),
        decide (rank_index (get_rank_for_trophies (old_trophies + settle.settlement_delta)) <
          rank_index (get_rank_for_trophies old_trophies)),
        inp.last_place_delta_applied⟩ := by
  unfold compute_race_rewards_with_prededuction at h
  set cb : ℝ := (if inp.has_coin_booster = true then (2.0 : ℝ) else 1.0) with hcb
  set xb : ℝ := (if inp.has_exp_booster = true then (2.0 : ℝ) else 1.0) with hxb
  dsimp only at h
  split at h
  · exact Except.noConfusion h
  · rename_i old_trophies heq
    split at h
    · exact Except.noConfusion h
    · rename_i settle hset
      split at h
      · exact Except.noConfusion h
      · rename_i coins hcoins
        split at h
        · exact Except.noConfusion h
        · rename_i expv hexp
          exact ⟨old_trophies, settle, coins, expv, heq, hset, hcoins, hexp,
            (Except.ok.inj h).symm⟩

/-- C7: in every successful orchestrator result, `promoted` holds iff the new
rank ordinal strictly exceeds the old one, `demoted` iff it is strictly smaller,
the flags are mutually exclusive, and identical rank labels give neither flag. -/
theorem claim_C7 (inp : RaceInputsWithPrededuction) (tc : TrophyConfig)
    (cc : CoinConfig) (xc : ExpConfig) (r : RaceRewardsWithSettlement)
    (h : compute_race_rewards_with_prededuction inp tc cc xc = .ok r) :
    (r.promoted = true ↔ rank_index r.old_rank < rank_index r.new_rank) ∧
    (r.demoted = true ↔ rank_index r.new_rank < rank_index r.old_rank) ∧
    ¬(r.promoted = true ∧ r.demoted = true) ∧
    (r.old_rank = r.new_rank → r.promoted = false ∧ r.demoted = false) := by
  obtain ⟨ot, settle, ca, ea, _, _, _, _, hr⟩ := compute_ok_decompose inp tc cc xc r h
  subst hr
  refine ⟨by simp, by simp, ?_, ?_⟩
  · rintro ⟨hp, hd⟩
    simp only [decide_eq_true_eq] at hp hd
    exact Nat.lt_asymm hp hd
  · intro he
    have hidx : rank_index (get_rank_for_trophies ot) =
        rank_index (get_rank_for_trophies (ot + settle.settlement_delta)) :=
      congrArg rank_index he
    constructor
    · show decide (rank_index (get_rank_for_trophies ot) <
        rank_index (get_rank_for_trophies (ot + settle.settlement_delta))) = false
      rw [← hidx]
      simp
    · show decide (rank_index (get_rank_for_trophies (ot + settle.settlement_delta)) <
        rank_index (get_rank_for_trophies ot)) = false
      rw [← hidx]
      simp

/-- Witness for C7 on the concrete orchestrator run. -/
theorem claim_C7_witness :
    compute_race_rewards_with_prededuction inp0 tcfg0 ccfg0 xcfg0 =
      .ok ⟨8, 16, 2000, 120, "Unranked", "Unranked", false, false, -8⟩ ∧
    ¬((⟨8, 16, 2000, 120, "Unranked", "Unranked", false, false, -8⟩ :
        RaceRewardsWithSettlement).promoted = true ∧
      (⟨8, 16, 2000, 120, "Unranked", "Unranked", false, false, -8⟩ :
        RaceRewardsWithSettlement).demoted = true) :=
  ⟨orchestrator_eval, (claim_C7 inp0 tcfg0 ccfg0 xcfg0 _ orchestrator_eval).2.2.1⟩

/-- Inversion of `calculate_exp` in table mode. -/
lemma calculate_exp_table_inv (trophies place tp : ℤ) (cfg : ExpConfig) (rl : String)
    (table : List (String × List ℤ)) (v : ℤ)
    (htab : cfg.rank_place_caps = some table)
    (h : calculate_exp trophies place tp cfg (some rl) = .ok v) :
    ∃ caps, table.lookup rl = some caps ∧ caps ≠ [] ∧ 1 ≤ place ∧
      place ≤ (caps.length : ℤ) ∧
      v = max 0 (pyRound (((caps.getD (place - 1).toNat 0 : ℤ) : ℝ) *
        cfg.booster_multiplier)) := by
  unfold calculate_exp at h
  simp only [htab] at h
  split at h
  · exact Except.noConfusion h
  · rename_i caps hcaps
    split at h
    · exact Except.noConfusion h
    · rename_i hcond
      push_neg at hcond
      exact ⟨caps, hcaps, hcond.1, hcond.2.1, hcond.2.2, (Except.ok.inj h).symm⟩

/-- C10: every successful orchestrator run computes experience in table mode (the
built-in `EXP_CAPS_BY_RANK` substituting for an unset table), so the experience
amount is the table entry for the derived rank label and place times the booster —
independent of `total_positions` and of the raw trophy value beyond its rank. -/
theorem claim_C10 (inp : RaceInputsWithPrededuction) (tc : TrophyConfig)
    (cc : CoinConfig) (xc : ExpConfig) (r : RaceRewardsWithSettlement)
    (h : compute_race_rewards_with_prededuction inp tc cc xc = .ok r) :
    ∃ old_trophies caps,
      inp.ratings.get? inp.player_index = some old_trophies ∧
      r.old_rank = get_rank_for_trophies old_trophies ∧
      (expTableOf xc).lookup r.old_rank = some caps ∧ caps ≠ [] ∧
      1 ≤ inp.place ∧ inp.place ≤ (caps.length : ℤ) ∧
      r.exp = max 0 (pyRound (((caps.getD (inp.place - 1).toNat 0 : ℤ) : ℝ) *
        (if inp.has_exp_booster then 2.0 else 1.0))) := by
  obtain ⟨ot, settle, ca, ea, hget, hset, hcoins, hexp, hr⟩ :=
    compute_ok_decompose inp tc cc xc r h
  obtain ⟨caps, hcaps, hne, h1, h2, hv⟩ :=
    calculate_exp_table_inv ot inp.place inp.total_positions _ _ (expTableOf xc) ea
      rfl hexp
  subst hr
  exact ⟨ot, caps, hget, rfl, hcaps, hne, h1, h2, hv⟩

/-- Witness for C10 on the concrete orchestrator run. -/
theorem claim_C10_witness :
    compute_race_rewards_with_prededuction inp0 tcfg0 ccfg0 xcfg0 =
      .ok ⟨8, 16, 2000, 120, "Unranked", "Unranked", false, false, -8⟩ ∧
    ∃ old_trophies caps,
      inp0.ratings.get? inp0.player_index = some old_trophies ∧
      (⟨8, 16, 2000, 120, "Unranked", "Unranked", false, false, -8⟩ :
        RaceRewardsWithSettlement).old_rank = get_rank_for_trophies old_trophies ∧
      (expTableOf xcfg0).lookup (⟨8, 16, 2000, 120, "Unranked", "Unranked", false,
        false, -8⟩ : RaceRewardsWithSettlement).old_rank = some caps ∧ caps ≠ [] ∧
      1 ≤ inp0.place ∧ inp0.place ≤ (caps.length : ℤ) ∧
      (⟨8, 16, 2000, 120, "Unranked", "Unranked", false, false, -8⟩ :
        RaceRewardsWithSettlement).exp =
        max 0 (pyRound (((caps.getD (inp0.place - 1).toNat 0 : ℤ) : ℝ) *
          (if inp0.has_exp_booster then 2.0 else 1.0))) :=
  ⟨orchestrator_eval, claim_C10 inp0 tcfg0 ccfg0 xcfg0 _ orchestrator_eval⟩

/-- With a valid player index the lobby-difficulty average always computes. -/
lemma avg_ok_of_lt (i : ℕ) (lobby : List ℤ) (tc : TrophyConfig)
    (hi : i < lobby.length) : ∃ a, avg_expected_vs_lobby i lobby tc = .ok a := by
  unfold avg_expected_vs_lobby precompute_for_player
  simp only [List.get?_eq_get hi]
  exact ⟨_, rfl⟩

/-- With an out-of-range player index the difficulty average raises `IndexError`. -/
lemma avg_err_of_ge (i : ℕ) (lobby : List ℤ) (tc : TrophyConfig)
    (hi : lobby.length ≤ i) :
    avg_expected_vs_lobby i lobby tc = .error .indexError := by
  unfold avg_expected_vs_lobby precompute_for_player
  simp only [List.get?_eq_none.mpr hi]

/-- C8 counterexample: with the cap table set, the rank present, and the place in
range, `calculate_coins` can still fail — an empty lobby raises `IndexError` via
the difficulty computation, so the claimed error conditions are not exhaustive. -/
theorem claim_C8_counterexample :
    ccfg0.rank_max_by_place = some COIN_CAPS_BY_RANK ∧
    COIN_CAPS_BY_RANK.lookup "Unranked" =
      some [2000, 1500, 1200, 900, 900, 900, 900, 900] ∧
    (1 : ℤ) ≤ 1 ∧ (1 : ℤ) ≤ 8 ∧
    calculate_coins "Unranked" 1 [] 0 ccfg0 tcfg0 = .error .indexError := by
  refine ⟨rfl, rfl, by decide, by decide, ?_⟩
  unfold calculate_coins
  simp only [show ccfg0.rank_max_by_place = some COIN_CAPS_BY_RANK from rfl,
    show COIN_CAPS_BY_RANK.lookup "Unranked" =
      some [2000, 1500, 1200, 900, 900, 900, 900, 900] from rfl]
  rw [if_neg (by push_neg; exact ⟨by decide, by decide, by decide⟩)]
  simp only [avg_err_of_ge 0 [] tcfg0 (by decide)]

/-- C8 (amended): `calculate_coins` fails with the named `ValueError` when the cap
table is unset, with the named `KeyError` exactly when the rank is missing or the
place is out of `1..len(caps)` (never substituting a default cap), succeeds for all
other inputs with a valid player index and nonzero `TAU`, `D` and `round_to`
(zero values of those make the Python source raise `ZeroDivisionError` instead),
and raises `IndexError` when the player index is outside the lobby snapshot
(reached before any division, so that conjunct needs no nonzero hypotheses). -/
theorem claim_C8 (rank : String) (place : ℤ) (lobby : List ℤ) (i : ℕ)
    (cc : CoinConfig) (tc : TrophyConfig) :
    (cc.rank_max_by_place = none →
      calculate_coins rank place lobby i cc tc =
        .error (.valueError "CoinConfig.rank_max_by_place must be provided.")) ∧
    (∀ table, cc.rank_max_by_place = some table → table.lookup rank = none →
      calculate_coins rank place lobby i cc tc =
        .error (.keyError "Missing caps for rank or invalid place")) ∧
    (∀ table caps, cc.rank_max_by_place = some table → table.lookup rank = some caps →
      (caps = [] ∨ ¬(1 ≤ place ∧ place ≤ (caps.length : ℤ))) →
      calculate_coins rank place lobby i cc tc =
        .error (.keyError "Missing caps for rank or invalid place")) ∧
    (∀ table caps, cc.rank_max_by_place = some table → table.lookup rank = some caps →
      caps ≠ [] → 1 ≤ place → place ≤ (caps.length : ℤ) → i < lobby.length →
      tc.TAU ≠ 0 → tc.D ≠ 0 → cc.round_to ≠ 0 →
      ∃ v, calculate_coins rank place lobby i cc tc = .ok v) ∧
    (∀ table caps, cc.rank_max_by_place = some table → table.lookup rank = some caps →
      caps ≠ [] → 1 ≤ place → place ≤ (caps.length : ℤ) → lobby.length ≤ i →
      calculate_coins rank place lobby i cc tc = .error .indexError) := by
  refine ⟨?_, ?_, ?_, ?_, ?_⟩
  · intro h
    unfold calculate_coins
    simp only [h]
  · intro table h1 h2
    unfold calculate_coins
    simp only [h1, h2]
  · intro table caps h1 h2 hcond
    unfold calculate_coins
    simp only [h1, h2]
    rw [if_pos hcond]
  · intro table caps h1 h2 h3 h4 h5 hi _ _ _
    obtain ⟨a, ha⟩ := avg_ok_of_lt i lobby tc hi
    exact ⟨_, calculate_coins_ok rank place lobby i cc tc table caps a h1 h2 h3 h4 h5 ha⟩
  · intro table caps h1 h2 h3 h4 h5 hge
    unfold calculate_coins
    simp only [h1, h2]
    rw [if_neg (by push_neg; exact ⟨h3, h4, h5⟩)]
    simp only [avg_err_of_ge i lobby tc hge]

/-- Witness for the amended C8 at concrete inputs. -/
theorem claim_C8_witness :
    (({} : CoinConfig).rank_max_by_place = none ∧
      calculate_coins "Unranked" 1 [0, 0] 0 {} tcfg0 =
        .error (.valueError "CoinConfig.rank_max_by_place must be provided.")) ∧
    (ccfg0.rank_max_by_place = some COIN_CAPS_BY_RANK ∧
      COIN_CAPS_BY_RANK.lookup "Nonexistent Rank" = none ∧
      calculate_coins "Nonexistent Rank" 1 [0, 0] 0 ccfg0 tcfg0 =
        .error (.keyError "Missing caps for rank or invalid place")) ∧
    (COIN_CAPS_BY_RANK.lookup "Unranked" =
        some [2000, 1500, 1200, 900, 900, 900, 900, 900] ∧
      calculate_coins "Unranked" 9 [0, 0] 0 ccfg0 tcfg0 =
        .error (.keyError "Missing caps for rank or invalid place")) ∧
    (tcfg0.TAU ≠ 0 ∧ tcfg0.D ≠ 0 ∧ ccfg0.round_to ≠ 0 ∧
      ∃ v, calculate_coins "Unranked" 1 [0, 0] 0 ccfg0 tcfg0 = .ok v) ∧
    calculate_coins "Unranked" 1 [] 0 ccfg0 tcfg0 = .error .indexError := by
  refine ⟨⟨rfl, ?_⟩, ⟨rfl, rfl, ?_⟩, ⟨rfl, ?_⟩,
    ⟨by norm_num [tcfg0], by norm_num [tcfg0], by norm_num [ccfg0], ?_⟩, ?_⟩
  · exact (claim_C8 "Unranked" 1 [0, 0] 0 {} tcfg0).1 rfl
  · exact (claim_C8 "Nonexistent Rank" 1 [0, 0] 0 ccfg0 tcfg0).2.1 COIN_CAPS_BY_RANK
      rfl rfl
  · exact (claim_C8 "Unranked" 9 [0, 0] 0 ccfg0 tcfg0).2.2.1 COIN_CAPS_BY_RANK
      [2000, 1500, 1200, 900, 900, 900, 900, 900] rfl rfl (by decide)
  · exact (claim_C8 "Unranked" 1 [0, 0] 0 ccfg0 tcfg0).2.2.2.1 COIN_CAPS_BY_RANK
      [2000, 1500, 1200, 900, 900, 900, 900, 900] rfl rfl (by decide) (by decide)
      (by decide) (by decide) (by norm_num [tcfg0]) (by norm_num [tcfg0])
      (by norm_num [ccfg0])
  · exact (claim_C8 "Unranked" 1 [] 0 ccfg0 tcfg0).2.2.2.2 COIN_CAPS_BY_RANK
      [2000, 1500, 1200, 900, 900, 900, 900, 900] rfl rfl (by decide) (by decide)
      (by decide) (by decide)

/-- `pyRound` is a nearest integer: it never strays more than 1/2 from its input. -/
lemma pyRound_near (x : ℝ) : |((pyRound x : ℤ) : ℝ) - x| ≤ 1/2 := by
  have h0 : (0 : ℝ) ≤ Int.fract x := Int.fract_nonneg x
  have h1 : Int.fract x < 1 := Int.fract_lt_one x
  have hf : ((⌊x⌋ : ℤ) : ℝ) = x - Int.fract x := by rw [Int.fract]; ring
  unfold pyRound
  split_ifs with ha hb hc <;> push_cast <;> rw [hf, abs_le] <;> constructor <;> linarith

/-- Inversion of a successful `calculate_coins` run. -/
lemma calculate_coins_ok_inv (rank : String) (place : ℤ) (lobby : List ℤ) (i : ℕ)
    (cc : CoinConfig) (tc : TrophyConfig) (v : ℤ)
    (h : calculate_coins rank place lobby i cc tc = .ok v) :
    ∃ table caps avgE, cc.rank_max_by_place = some table ∧
      table.lookup rank = some caps ∧ caps ≠ [] ∧ 1 ≤ place ∧
      place ≤ (caps.length : ℤ) ∧
      avg_expected_vs_lobby i lobby tc = .ok avgE ∧
      v = max 0 (pyRound (((caps.getD (place - 1).toNat 0 : ℤ) : ℝ) *
        difficulty_multiplier avgE cc.difficulty_floor cc.difficulty_ceiling *
        cc.booster_multiplier / ((cc.round_to : ℤ) : ℝ)) * cc.round_to) := by
  unfold calculate_coins at h
  split at h
  · exact Except.noConfusion h
  · rename_i table htab
    split at h
    · exact Except.noConfusion h
    · rename_i caps hcaps
      split at h
      · exact Except.noConfusion h
      · rename_i hcond
        push_neg at hcond
        split at h
        · exact Except.noConfusion h
        · rename_i avgE havg
          exact ⟨table, caps, avgE, htab, hcaps, hcond.1, hcond.2.1, hcond.2.2,
            havg, (Except.ok.inj h).symm⟩

/-- C4 counterexample: identical inputs, Bronze I place 2 in an equal two-player
lobby; unboosted coins are 1600 but boosted coins are 3300 ≠ 2 × 1600, because
rounding to the nearest 100 happens after the booster is applied. -/
theorem claim_C4_counterexample :
    ccfg0.booster_multiplier = 1.0 ∧
    calculate_coins "Bronze I" 2 [0, 0] 0 ccfg0 tcfg0 = .ok 1600 ∧
    calculate_coins "Bronze I" 2 [0, 0] 0 { ccfg0 with booster_multiplier := 2.0 }
      tcfg0 = .ok 3300 ∧
    (3300 : ℤ) ≠ 2 * 1600 :=
  ⟨rfl, coins_bronze_eval, coins_bronze_boost_eval, by decide⟩

/-- C4 (amended): a 2.0 booster doubles `calculate_exp` exactly in table mode
(integer caps are doubled before rounding); for `calculate_coins` the booster
doubles the pre-rounding amount, so after rounding to the `round_to` granularity
the boosted result can differ from twice the unboosted result by at most one
granule. -/
theorem claim_C4 :
    (∀ (trophies place tp : ℤ) (cfg : ExpConfig) (rl : String)
        (table : List (String × List ℤ)) (v : ℤ),
      cfg.rank_place_caps = some table → cfg.booster_multiplier = 1.0 →
      calculate_exp trophies place tp cfg (some rl) = .ok v →
      calculate_exp trophies place tp { cfg with booster_multiplier := 2.0 }
        (some rl) = .ok (2 * v)) ∧
    (∀ (rank : String) (place : ℤ) (lobby : List ℤ) (i : ℕ) (cc : CoinConfig)
        (tc : TrophyConfig) (v1 v2 : ℤ),
      cc.booster_multiplier = 1.0 → 0 ≤ cc.round_to →
      calculate_coins rank place lobby i cc tc = .ok v1 →
      calculate_coins rank place lobby i { cc with booster_multiplier := 2.0 } tc =
        .ok v2 →
      |v2 - 2 * v1| ≤ cc.round_to) := by
  constructor
  · intro trophies place tp cfg rl table v htab hb h
    obtain ⟨caps, hcaps, hne, h1, h2, hv⟩ :=
      calculate_exp_table_inv trophies place tp cfg rl table v htab h
    rw [hb] at hv
    rw [show ((caps.getD (place - 1).toNat 0 : ℤ) : ℝ) * (1.0 : ℝ) =
      ((caps.getD (place - 1).toNat 0 : ℤ) : ℝ) by norm_num, pyRound_intCast] at hv
    rw [calculate_exp_table_ok trophies place tp
      { cfg with booster_multiplier := (2.0 : ℝ) } rl table caps htab hcaps hne h1 h2]
    rw [show ({ cfg with booster_multiplier := (2.0 : ℝ) } : ExpConfig).booster_multiplier
      = (2.0 : ℝ) from rfl]
    rw [show ((caps.getD (place - 1).toNat 0 : ℤ) : ℝ) * (2.0 : ℝ) =
      ((2 * caps.getD (place - 1).toNat 0 : ℤ) : ℝ) by push_cast; ring, pyRound_intCast]
    rw [Except.ok.injEq, hv]
    omega
  · intro rank place lobby i cc tc v1 v2 hb hrt h1 h2
    obtain ⟨t1, c1, a1, ht1, hc1, hne1, hp1, hl1, ha1, hv1⟩ :=
      calculate_coins_ok_inv rank place lobby i cc tc v1 h1
    obtain ⟨t2, c2, a2, ht2, hc2, hne2, hp2, hl2, ha2, hv2⟩ :=
      calculate_coins_ok_inv rank place lobby i _ tc v2 h2
    dsimp only at ht2 hc2 hv2
    have htt : t1 = t2 := Option.some.inj (ht1.symm.trans ht2)
    subst htt
    have hcc : c1 = c2 := Option.some.inj (hc1.symm.trans hc2)
    subst hcc
    have haa : a1 = a2 := Except.ok.inj (ha1.symm.trans ha2)
    subst haa
    rw [hb] at hv1
    set cval : ℝ := ((c1.getD (place - 1).toNat 0 : ℤ) : ℝ) with hcval
    set m : ℝ := difficulty_multiplier a1 cc.difficulty_floor cc.difficulty_ceiling
      with hm
    set rtr : ℝ := ((cc.round_to : ℤ) : ℝ) with hrtr
    have hx2 : cval * m * (2.0 : ℝ) / rtr = 2 * (cval * m * (1.0 : ℝ) / rtr) := by
      ring
    rw [hx2] at hv2
    set x : ℝ := cval * m * (1.0 : ℝ) / rtr with hxdef
    set R1 : ℤ := pyRound x with hR1
    set R2 : ℤ := pyRound (2 * x) with hR2
    obtain ⟨l1, u1⟩ := abs_le.mp (pyRound_near x)
    obtain ⟨l2, u2⟩ := abs_le.mp (pyRound_near (2 * x))
    have hRR : |R2 - 2 * R1| ≤ 1 := by
      rw [← hR1] at l1 u1
      rw [← hR2] at l2 u2
      by_contra hcon
      push_neg at hcon
      have h2le : (2 : ℤ) ≤ |R2 - 2 * R1| := hcon
      have h2r : ((2 : ℤ) : ℝ) ≤ ((|R2 - 2 * R1| : ℤ) : ℝ) := Int.cast_le.mpr h2le
      push_cast at h2r
      rcases abs_cases (((R2 : ℤ) : ℝ) - 2 * ((R1 : ℤ) : ℝ)) with ⟨heq, _⟩ | ⟨heq, _⟩ <;>
        rw [heq] at h2r <;> linarith
    have h2max : 2 * max 0 (R1 * cc.round_to) = max 0 (2 * (R1 * cc.round_to)) := by
      rw [mul_max_of_nonneg _ _ (by norm_num : (0 : ℤ) ≤ 2)]
      norm_num
    rw [hv1, hv2, h2max]
    calc |max 0 (R2 * cc.round_to) - max 0 (2 * (R1 * cc.round_to))|
        ≤ |R2 * cc.round_to - 2 * (R1 * cc.round_to)| := by
          simpa [max_comm] using
            abs_max_sub_max_le_abs (R2 * cc.round_to) (2 * (R1 * cc.round_to)) 0
      _ = |R2 - 2 * R1| * |cc.round_to| := by
          rw [show R2 * cc.round_to - 2 * (R1 * cc.round_to) =
            (R2 - 2 * R1) * cc.round_to by ring, abs_mul]
      _ ≤ 1 * |cc.round_to| := mul_le_mul_of_nonneg_right hRR (abs_nonneg _)
      _ = cc.round_to := by rw [one_mul, abs_of_nonneg hrt]

/-- Witness for the amended C4 at concrete inputs. -/
theorem claim_C4_witness :
    ({ xcfg0 with rank_place_caps := some EXP_CAPS_BY_RANK } : ExpConfig).rank_place_caps
      = some EXP_CAPS_BY_RANK ∧
    ({ xcfg0 with rank_place_caps := some EXP_CAPS_BY_RANK } :
      ExpConfig).booster_multiplier = 1.0 ∧
    calculate_exp 0 1 2 { xcfg0 with rank_place_caps := some EXP_CAPS_BY_RANK }
      (some "Unranked") = .ok 120 ∧
    calculate_exp 0 1 2
      { { xcfg0 with rank_place_caps := some EXP_CAPS_BY_RANK } with
        booster_multiplier := 2.0 } (some "Unranked") = .ok (2 * 120) ∧
    ccfg0.booster_multiplier = 1.0 ∧ (0 : ℤ) ≤ ccfg0.round_to ∧
    calculate_coins "Bronze I" 2 [0, 0] 0 ccfg0 tcfg0 = .ok 1600 ∧
    calculate_coins "Bronze I" 2 [0, 0] 0 { ccfg0 with booster_multiplier := 2.0 }
      tcfg0 = .ok 3300 ∧
    |(3300 : ℤ) - 2 * 1600| ≤ ccfg0.round_to := by
  have hexp1 : calculate_exp 0 1 2
      { xcfg0 with rank_place_caps := some EXP_CAPS_BY_RANK } (some "Unranked") =
      .ok 120 :=
    exp_unranked_eval _ 0 2 rfl rfl
  refine ⟨rfl, rfl, hexp1, ?_, rfl, by norm_num [ccfg0], coins_bronze_eval,
    coins_bronze_boost_eval, ?_⟩
  · exact claim_C4.1 0 1 2 _ "Unranked" EXP_CAPS_BY_RANK 120 rfl rfl hexp1
  · exact claim_C4.2 "Bronze I" 2 [0, 0] 0 ccfg0 tcfg0 1600 3300 rfl
      (by norm_num [ccfg0]) coins_bronze_eval coins_bronze_boost_eval

end RaceEconomy
